import Mathlib

/-!
Shallow embedding of the two core data structures of the `bevy_tarot`
repository, with proofs of the specification's claims about them:

* `crates/bevy_tarot_chariot/src/lib.rs` — `GenericButton`, `MappedButtons`,
  and the bidirectional `ButtonMapping` registry;
* `crates/bevy_tarot_magician/src/sprite.rs` — `SpriteSheet`, its grid / list
  layouts, the index → rectangle lookup with its lazy cell-size cache, and the
  conversion to a texture-atlas layout.

Rust `u32` values are modelled as `Nat` with explicit wrap-around
(`% 2^32`) at every arithmetic step where the source performs `u32`
arithmetic; `HashMap` is modelled as a function into `Option`;
`SmallVec` / `Vec` as `List`; the `RefCell` cell-size cache as explicit
state passing.
-/

namespace BevyTarot

/-- `u32` wrap-around: Rust release-mode `u32` multiplication/addition
reduces modulo `2^32`. -/
def w32 (n : Nat) : Nat := n % 4294967296

/-- `GenericButton` (chariot): tagged union over keyboard, mouse and gamepad
button codes.  `K`, `M`, `G` stand for the engine code types `KeyCode`,
`MouseButton`, `GamepadButton`, which the crate never inspects beyond
equality and hashing, so they are kept abstract. -/
inductive GenericButton (K M G : Type) where
  | keyBoard (k : K)
  | mouse (m : M)
  | gamepad (g : G)
deriving DecidableEq

/-- Observable interface of the engine's `ButtonInput<T>` device-state
snapshot: the three query methods the chariot crate calls on it. -/
structure ButtonInput (T : Type) where
  pressed : T → Bool
  justPressed : T → Bool
  justReleased : T → Bool

variable {A K M G : Type}

/-- `GenericButton::pressed`: dispatch to the snapshot matching the tag;
an omitted snapshot gives `false` (`unwrap_or_default`). -/
def GenericButton.pressed (b : GenericButton K M G)
    (keyCodes : Option (ButtonInput K))
    (mouseButtons : Option (ButtonInput M))
    (gamepadButtons : Option (ButtonInput G)) : Bool :=
  match b with
  | .keyBoard k => (keyCodes.map fun bi => bi.pressed k).getD false
  | .mouse m => (mouseButtons.map fun bi => bi.pressed m).getD false
  | .gamepad g => (gamepadButtons.map fun bi => bi.pressed g).getD false

/-- `GenericButton::just_pressed`. -/
def GenericButton.justPressed (b : GenericButton K M G)
    (keyCodes : Option (ButtonInput K))
    (mouseButtons : Option (ButtonInput M))
    (gamepadButtons : Option (ButtonInput G)) : Bool :=
  match b with
  | .keyBoard k => (keyCodes.map fun bi => bi.justPressed k).getD false
  | .mouse m => (mouseButtons.map fun bi => bi.justPressed m).getD false
  | .gamepad g => (gamepadButtons.map fun bi => bi.justPressed g).getD false

/-- `GenericButton::just_released`. -/
def GenericButton.justReleased (b : GenericButton K M G)
    (keyCodes : Option (ButtonInput K))
    (mouseButtons : Option (ButtonInput M))
    (gamepadButtons : Option (ButtonInput G)) : Bool :=
  match b with
  | .keyBoard k => (keyCodes.map fun bi => bi.justReleased k).getD false
  | .mouse m => (mouseButtons.map fun bi => bi.justReleased m).getD false
  | .gamepad g => (gamepadButtons.map fun bi => bi.justReleased g).getD false

/-- `MappedButtons<A>`: one action paired with the buttons it maps to
(`SmallVec` modelled as a list). -/
structure MappedButtons (A K M G : Type) where
  action : A
  buttons : List (GenericButton K M G)
deriving DecidableEq

/-- `HashMap::insert` on the functional map model (overwrites). -/
def mapInsert [DecidableEq α] (m : α → Option β) (k : α) (v : β) :
    α → Option β :=
  fun x => if x = k then some v else m x

/-- `HashMap::remove` on the functional map model. -/
def mapRemove [DecidableEq α] (m : α → Option β) (k : α) : α → Option β :=
  fun x => if x = k then none else m x

/-- `ButtonMapping<A>`: backing list of entries plus the two indexes
(action → list position, button → list position). -/
structure ButtonMapping (A K M G : Type) where
  mappedButtons : List (MappedButtons A K M G)
  fromActionMap : A → Option Nat
  fromButtonMap : GenericButton K M G → Option Nat

/-- `Default for ButtonMapping`: empty list, empty maps. -/
def ButtonMapping.default : ButtonMapping A K M G :=
  { mappedButtons := []
    fromActionMap := fun _ => none
    fromButtonMap := fun _ => none }

/-- `ButtonMapping::get_from_action`. -/
def ButtonMapping.getFromAction (s : ButtonMapping A K M G) (action : A) :
    Option (MappedButtons A K M G) :=
  (s.fromActionMap action).bind fun i => s.mappedButtons.get? i

/-- `ButtonMapping::get_from_button`. -/
def ButtonMapping.getFromButton (s : ButtonMapping A K M G)
    (button : GenericButton K M G) : Option (MappedButtons A K M G) :=
  (s.fromButtonMap button).bind fun i => s.mappedButtons.get? i

/-- `ButtonMapping::get_action`. -/
def ButtonMapping.getAction (s : ButtonMapping A K M G)
    (button : GenericButton K M G) : Option A :=
  (s.getFromButton button).map fun m => m.action

/-- `ButtonMapping::get_buttons`. -/
def ButtonMapping.getButtons (s : ButtonMapping A K M G) (action : A) :
    Option (List (GenericButton K M G)) :=
  (s.getFromAction action).map fun m => m.buttons

/-- `ButtonMapping::is_mapped`. -/
def ButtonMapping.isMapped (s : ButtonMapping A K M G)
    (button : GenericButton K M G) : Bool :=
  (s.fromButtonMap button).isSome

/-- `ButtonMapping::pressed`: any button bound to the action is pressed. -/
def ButtonMapping.pressed (s : ButtonMapping A K M G) (action : A)
    (keyCodes : Option (ButtonInput K))
    (mouseButtons : Option (ButtonInput M))
    (gamepadButtons : Option (ButtonInput G)) : Bool :=
  ((s.getButtons action).map fun bts =>
    bts.any fun b => b.pressed keyCodes mouseButtons gamepadButtons).getD false

/-- `ButtonMapping::just_pressed`. -/
def ButtonMapping.justPressed (s : ButtonMapping A K M G) (action : A)
    (keyCodes : Option (ButtonInput K))
    (mouseButtons : Option (ButtonInput M))
    (gamepadButtons : Option (ButtonInput G)) : Bool :=
  ((s.getButtons action).map fun bts =>
    bts.any fun b =>
      b.justPressed keyCodes mouseButtons gamepadButtons).getD false

/-- `ButtonMapping::just_released`. -/
def ButtonMapping.justReleased (s : ButtonMapping A K M G) (action : A)
    (keyCodes : Option (ButtonInput K))
    (mouseButtons : Option (ButtonInput M))
    (gamepadButtons : Option (ButtonInput G)) : Bool :=
  ((s.getButtons action).map fun bts =>
    bts.any fun b =>
      b.justReleased keyCodes mouseButtons gamepadButtons).getD false

/-- `ButtonMapping::update_buttons`: if the action resolves to an entry,
remove the entry's old buttons from the reverse index, install the new
buttons at the same position, and replace the entry's button list in
place. -/
def ButtonMapping.updateButtons [DecidableEq K] [DecidableEq M]
    [DecidableEq G] (s : ButtonMapping A K M G) (action : A)
    (buttons : List (GenericButton K M G)) : ButtonMapping A K M G :=
  match s.fromActionMap action with
  | none => s
  | some i =>
    match s.mappedButtons.get? i with
    | none => s
    | some mapping =>
      let fbm1 := mapping.buttons.foldl (fun m b => mapRemove m b)
        s.fromButtonMap
      let fbm2 := buttons.foldl (fun m b => mapInsert m b i) fbm1
      { mappedButtons :=
          s.mappedButtons.set i { mapping with buttons := buttons }
        fromActionMap := s.fromActionMap
        fromButtonMap := fbm2 }

/-- `ButtonMapping::insert_mapping`: reject if the action is already bound
or any button is already claimed; otherwise register every button and the
action at position `len` and push the entry. -/
def ButtonMapping.insertMapping [DecidableEq A] [DecidableEq K]
    [DecidableEq M] [DecidableEq G] (s : ButtonMapping A K M G)
    (mapping : MappedButtons A K M G) : Bool × ButtonMapping A K M G :=
  if (s.fromActionMap mapping.action).isSome
      || mapping.buttons.any (fun b => (s.fromButtonMap b).isSome) then
    (false, s)
  else
    (true,
      { mappedButtons := s.mappedButtons ++ [mapping]
        fromActionMap :=
          mapInsert s.fromActionMap mapping.action s.mappedButtons.length
        fromButtonMap :=
          mapping.buttons.foldl
            (fun m b => mapInsert m b s.mappedButtons.length)
            s.fromButtonMap })

/-- Run a sequence of `insert_mapping` calls from the default mapping. -/
def insertAll [DecidableEq A] [DecidableEq K] [DecidableEq M] [DecidableEq G]
    (ms : List (MappedButtons A K M G)) : ButtonMapping A K M G :=
  ms.foldl (fun s m => (s.insertMapping m).2) ButtonMapping.default

/-- `SpriteData` (magician): one sub-rectangle, min/max pixel corners. -/
structure SpriteData where
  min : Nat × Nat
  max : Nat × Nat
deriving DecidableEq

/-- `SpriteData::new`. -/
def SpriteData.new (min max : Nat × Nat) : SpriteData := ⟨min, max⟩

/-- `SpriteSheetGrid`: rows × cols. -/
structure SpriteSheetGrid where
  rows : Nat
  cols : Nat
deriving DecidableEq

/-- `SpriteSheetGrid::len`: `(self.rows * self.cols) as usize`, where the
multiplication is performed in `u32` and therefore wraps. -/
def SpriteSheetGrid.len (g : SpriteSheetGrid) : Nat := w32 (g.rows * g.cols)

/-- `SpriteSheetLayout`: uniform grid or explicit rectangle list. -/
inductive SpriteSheetLayout where
  | grid (g : SpriteSheetGrid)
  | list (l : List SpriteData)
deriving DecidableEq

/-- `SpriteSheet`: layout plus base image size `(width, height)`.  The
`RefCell<Option<(u32,u32)>>` cell-size cache is not a field here; it is
threaded explicitly through `SpriteSheet.getWithCache`. -/
structure SpriteSheet where
  layout : SpriteSheetLayout
  size : Nat × Nat
deriving DecidableEq

/-- `SpriteSheet::len`. -/
def SpriteSheet.len (s : SpriteSheet) : Nat :=
  match s.layout with
  | .grid g => g.len
  | .list l => l.length

/-- `SpriteSheet::get` with the `grid_sprite_size` cache made explicit:
takes the cache cell's current contents and returns the result together
with the cell's contents after the call.  Mirrors the source line by
line: compute `row = index / cols`, bail out with `None` when
`row >= rows`, read the cached cell size or compute and store
`(size.0 / cols, size.1 / rows)`, then build the rectangle with `u32`
arithmetic. -/
def SpriteSheet.getWithCache (s : SpriteSheet) (cache : Option (Nat × Nat))
    (index : Nat) : Option SpriteData × Option (Nat × Nat) :=
  match s.layout with
  | .grid g =>
    let row := index / g.cols
    if row ≥ g.rows then (none, cache)
    else
      let col := index % g.cols
      let spriteSize :=
        match cache with
        | some sz => sz
        | none => (s.size.1 / g.cols, s.size.2 / g.rows)
      let cache' :=
        match cache with
        | some sz => some sz
        | none => some (s.size.1 / g.cols, s.size.2 / g.rows)
      let x := w32 (spriteSize.1 * col)
      let y := w32 (spriteSize.2 * row)
      (some (SpriteData.new (x, y)
        (w32 (x + spriteSize.1), w32 (y + spriteSize.2))), cache')
  | .list l => (l.get? index, cache)

/-- `SpriteSheet::get` as first called on a freshly loaded sheet (the
serde-skipped cache cell starts out `None`). -/
def SpriteSheet.get (s : SpriteSheet) (index : Nat) : Option SpriteData :=
  (s.getWithCache none index).1

/-- Eager cell-size computation, with no cache involved: the value the
cache cell is populated with for a grid sheet. -/
def SpriteSheet.eagerCellSize (s : SpriteSheet) : Option (Nat × Nat) :=
  match s.layout with
  | .grid g => some (s.size.1 / g.cols, s.size.2 / g.rows)
  | .list _ => none

/-- A cache state the `RefCell` can actually hold: still unset, or set to
the eagerly computed cell size. -/
def SpriteSheet.cacheOk (s : SpriteSheet) (c : Option (Nat × Nat)) : Prop :=
  c = none ∨ c = s.eagerCellSize

/-- An atlas region: `bevy_math::URect`, an axis-aligned rectangle given
by its minimum and maximum corner. -/
structure URect where
  min : Nat × Nat
  max : Nat × Nat
deriving DecidableEq

/-- `URect::from_corners`: builds the rectangle spanned by two opposite
corners, which need not be ordered — the stored `min`/`max` are the
componentwise minimum/maximum of the two points. -/
def URect.fromCorners (p0 p1 : Nat × Nat) : URect :=
  { min := (Nat.min p0.1 p1.1, Nat.min p0.2 p1.2)
    max := (Nat.max p0.1 p1.1, Nat.max p0.2 p1.2) }

/-- `From<&SpriteSheet> for TextureAtlasLayout`: iterate the `usize`
range `0..len()`, look up each index cast to `u32` (`i as u32`, i.e.
truncated mod `2^32`), filter out indices where `get` returns `None`,
and `add_texture(URect::from_corners(sprite.min, sprite.max))` for each
returned rectangle, in order.  The `RefCell` cache is threaded through
the iteration exactly as the shared cell is in the source. -/
def SpriteSheet.toAtlasRegions (s : SpriteSheet) : List URect :=
  ((List.range s.len).foldl
    (fun (acc : List URect × Option (Nat × Nat)) i =>
      match s.getWithCache acc.2 (w32 i) with
      | (some d, c) => (acc.1 ++ [URect.fromCorners d.min d.max], c)
      | (none, c) => (acc.1, c))
    ([], none)).1

/-- Eager variant of the grid lookup, computing the cell size inline with
no cache: the reference point for the cache-independence claim. -/
def SpriteSheet.getEager (s : SpriteSheet) (index : Nat) : Option SpriteData :=
  match s.layout with
  | .grid g =>
    let row := index / g.cols
    if row ≥ g.rows then none
    else
      let col := index % g.cols
      let sz := (s.size.1 / g.cols, s.size.2 / g.rows)
      let x := w32 (sz.1 * col)
      let y := w32 (sz.2 * row)
      some (SpriteData.new (x, y) (w32 (x + sz.1), w32 (y + sz.2)))
  | .list _ => s.get index

/-- Well-formed sheet: a grid has positive rows and cols; any list is
well-formed. -/
def SpriteSheet.wellFormed (s : SpriteSheet) : Prop :=
  match s.layout with
  | .grid g => 0 < g.rows ∧ 0 < g.cols
  | .list _ => True

/-- The spec's index-consistency invariant on a `ButtonMapping` state:
the two hash maps agree with the backing entry list in both directions. -/
structure Consistent (s : ButtonMapping A K M G) : Prop where
  actionToEntry : ∀ a i, s.fromActionMap a = some i →
    ∃ mb, s.mappedButtons.get? i = some mb ∧ mb.action = a
  entryToAction : ∀ i mb, s.mappedButtons.get? i = some mb →
    s.fromActionMap mb.action = some i
  buttonToEntry : ∀ b i, s.fromButtonMap b = some i →
    ∃ mb, s.mappedButtons.get? i = some mb ∧ b ∈ mb.buttons
  entryToButton : ∀ i mb b, s.mappedButtons.get? i = some mb →
    b ∈ mb.buttons → s.fromButtonMap b = some i

/-- One mutating call through the registry's public interface. -/
inductive MappingOp (A K M G : Type) where
  | insert (m : MappedButtons A K M G)
  | update (a : A) (bts : List (GenericButton K M G))

/-- The button list a `MappingOp` supplies to the registry. -/
def MappingOp.suppliedButtons : MappingOp A K M G →
    List (GenericButton K M G)
  | .insert m => m.buttons
  | .update _ bts => bts

/-- Apply one registry operation. -/
def ButtonMapping.applyOp [DecidableEq A] [DecidableEq K] [DecidableEq M]
    [DecidableEq G] (s : ButtonMapping A K M G) :
    MappingOp A K M G → ButtonMapping A K M G
  | .insert m => (s.insertMapping m).2
  | .update a bts => s.updateButtons a bts

/-- Run a sequence of registry operations from the default mapping. -/
def applyOps [DecidableEq A] [DecidableEq K] [DecidableEq M] [DecidableEq G]
    (ops : List (MappingOp A K M G)) : ButtonMapping A K M G :=
  ops.foldl ButtonMapping.applyOp ButtonMapping.default

/-- A concrete action/button universe for witnesses: all four code types
instantiated at `Nat`. -/
def exMappings : List (MappedButtons Nat Nat Nat Nat) :=
  [⟨0, [.keyBoard 0]⟩, ⟨1, [.mouse 1]⟩]

/-- An all-pressed device snapshot over `Nat` codes, for witnesses. -/
def exInput : ButtonInput Nat :=
  { pressed := fun _ => true
    justPressed := fun _ => true
    justReleased := fun _ => true }

/-- A concrete operation sequence for witnesses: one insert followed by
one button replacement. -/
def exOps : List (MappingOp Nat Nat Nat Nat) :=
  [.insert ⟨0, [.keyBoard 0]⟩, .update 0 [.mouse 1]]

/-! ### Helper lemmas -/

theorem foldl_mapInsert_apply [DecidableEq α] (l : List α)
    (m : α → Option β) (v : β) (x : α) :
    (l.foldl (fun m b => mapInsert m b v) m) x
      = if x ∈ l then some v else m x := by
  induction l generalizing m with
  | nil => simp
  | cons b l ih =>
    simp only [List.foldl_cons, ih, mapInsert, List.mem_cons]
    by_cases hxl : x ∈ l <;> by_cases hxb : x = b <;> simp [hxl, hxb]

theorem foldl_mapRemove_apply [DecidableEq α] (l : List α)
    (m : α → Option β) (x : α) :
    (l.foldl (fun m b => mapRemove m b) m) x
      = if x ∈ l then none else m x := by
  induction l generalizing m with
  | nil => simp
  | cons b l ih =>
    simp only [List.foldl_cons, ih, mapRemove, List.mem_cons]
    by_cases hxl : x ∈ l <;> by_cases hxb : x = b <;> simp [hxl, hxb]

/-- Reading through a valid cache gives the same rectangle as the first
call on a fresh cache, and leaves the cache valid: the cell is only ever
written with the eagerly computed `(width/cols, height/rows)`. -/
theorem getWithCache_cacheOk (s : SpriteSheet) (c : Option (Nat × Nat))
    (hc : s.cacheOk c) (i : Nat) :
    (s.getWithCache c i).1 = s.get i
      ∧ s.cacheOk (s.getWithCache c i).2 := by
  rcases hc with hc | hc
  · subst hc
    exact ⟨rfl, by
      unfold SpriteSheet.getWithCache
      cases hl : s.layout with
      | grid g =>
        by_cases hr : i / g.cols ≥ g.rows
        · simp only [hr, if_pos]
          exact Or.inl rfl
        · simp only [hr, if_neg, not_false_iff]
          right
          simp [SpriteSheet.eagerCellSize, hl]
      | list l => exact Or.inl rfl⟩
  · subst hc
    unfold SpriteSheet.getWithCache SpriteSheet.get
    cases hl : s.layout with
    | grid g =>
      simp only [SpriteSheet.eagerCellSize, hl]
      by_cases hr : i / g.cols ≥ g.rows
      · simp only [hr, if_pos]
        exact ⟨by unfold SpriteSheet.getWithCache; simp [hl, hr],
          Or.inr (by simp [SpriteSheet.eagerCellSize, hl])⟩
      · simp only [hr, if_neg, not_false_iff]
        constructor
        · unfold SpriteSheet.getWithCache
          simp [hl, hr]
        · exact Or.inr (by simp [SpriteSheet.eagerCellSize, hl])
    | list l =>
      simp only [SpriteSheet.eagerCellSize, hl]
      exact ⟨by unfold SpriteSheet.getWithCache; simp [hl],
        Or.inr (by simp [SpriteSheet.eagerCellSize, hl])⟩

theorem get?_append_singleton (l : List α) (a : α) (i : Nat) :
    (l ++ [a]).get? i =
      if i < l.length then l.get? i
      else if i = l.length then some a else none := by
  by_cases h : i < l.length
  · rw [List.get?_append h]
    simp [h]
  · rw [List.get?_append_right (Nat.le_of_not_lt h)]
    by_cases h2 : i = l.length
    · subst h2
      simp
    · have hpos : 0 < i - l.length :=
        Nat.sub_pos_of_lt (Nat.lt_of_le_of_ne (Nat.le_of_not_lt h)
          (Ne.symm h2))
      rcases Nat.exists_eq_add_of_lt hpos with ⟨j, hj⟩
      simp only [h, if_false, h2]
      rw [show i - l.length = j + 1 by omega]
      simp

theorem default_consistent : Consistent (ButtonMapping.default (A := A)
    (K := K) (M := M) (G := G)) := by
  refine ⟨?_, ?_, ?_, ?_⟩
  · intro a i h
    simp [ButtonMapping.default] at h
  · intro i mb h
    simp [ButtonMapping.default] at h
  · intro b i h
    simp [ButtonMapping.default] at h
  · intro i mb b h hb
    simp [ButtonMapping.default] at h

theorem insertMapping_consistent [DecidableEq A] [DecidableEq K]
    [DecidableEq M] [DecidableEq G] {s : ButtonMapping A K M G}
    (hs : Consistent s) (m : MappedButtons A K M G) :
    Consistent (s.insertMapping m).2 := by
  rcases hs with ⟨hA1, hA2, hB1, hB2⟩
  unfold ButtonMapping.insertMapping
  by_cases hguard : ((s.fromActionMap m.action).isSome
      || m.buttons.any (fun b => (s.fromButtonMap b).isSome)) = true
  · simp only [hguard, if_true]
    exact ⟨hA1, hA2, hB1, hB2⟩
  · rw [Bool.not_eq_true] at hguard
    rcases Bool.or_eq_false_iff.mp hguard with ⟨hg1, hg2⟩
    have hact : s.fromActionMap m.action = none := by
      cases h : s.fromActionMap m.action with
      | none => rfl
      | some v => rw [h] at hg1; simp at hg1
    have hbtn : ∀ b ∈ m.buttons, s.fromButtonMap b = none := by
      intro b hb
      have := List.any_eq_false.mp hg2 b hb
      cases h : s.fromButtonMap b with
      | none => rfl
      | some v => rw [h] at this; simp at this
    simp only [hguard, Bool.false_eq_true, if_false]
    refine ⟨?_, ?_, ?_, ?_⟩
    · intro a i h
      simp only [mapInsert] at h
      rw [get?_append_singleton]
      by_cases ha : a = m.action
      · rw [if_pos ha] at h
        have hi : i = s.mappedButtons.length := by
          injection h with h
          omega
        subst hi
        simp [ha]
      · rw [if_neg ha] at h
        rcases hA1 a i h with ⟨mb, hmb, hac⟩
        have hlt : i < s.mappedButtons.length := by
          by_contra hge
          rw [List.get?_eq_none.mpr (Nat.le_of_not_lt hge)] at hmb
          exact Option.noConfusion hmb
        rw [if_pos hlt]
        exact ⟨mb, hmb, hac⟩
    · intro i mb h
      rw [get?_append_singleton] at h
      simp only [mapInsert]
      by_cases hlt : i < s.mappedButtons.length
      · rw [if_pos hlt] at h
        have hold := hA2 i mb h
        have hne : mb.action ≠ m.action := by
          intro he
          rw [he, hact] at hold
          exact Option.noConfusion hold
        rw [if_neg hne]
        exact hold
      · rw [if_neg hlt] at h
        by_cases heq : i = s.mappedButtons.length
        · rw [if_pos heq] at h
          injection h with h
          subst h
          rw [if_pos rfl, heq]
        · rw [if_neg heq] at h
          exact Option.noConfusion h
    · intro b i h
      dsimp only at h ⊢
      rw [foldl_mapInsert_apply] at h
      rw [get?_append_singleton]
      by_cases hb : b ∈ m.buttons
      · rw [if_pos hb] at h
        have hi : i = s.mappedButtons.length := by
          injection h with h
          omega
        subst hi
        simp [hb]
      · rw [if_neg hb] at h
        rcases hB1 b i h with ⟨mb, hmb, hbm⟩
        have hlt : i < s.mappedButtons.length := by
          by_contra hge
          rw [List.get?_eq_none.mpr (Nat.le_of_not_lt hge)] at hmb
          exact Option.noConfusion hmb
        rw [if_pos hlt]
        exact ⟨mb, hmb, hbm⟩
    · intro i mb b h hbm
      dsimp only at h ⊢
      rw [get?_append_singleton] at h
      rw [foldl_mapInsert_apply]
      by_cases hlt : i < s.mappedButtons.length
      · rw [if_pos hlt] at h
        have hold := hB2 i mb b h hbm
        have hnb : b ∉ m.buttons := by
          intro hmem
          rw [hbtn b hmem] at hold
          exact Option.noConfusion hold
        rw [if_neg hnb]
        exact hold
      · rw [if_neg hlt] at h
        by_cases heq : i = s.mappedButtons.length
        · rw [if_pos heq] at h
          injection h with h
          subst h
          rw [if_pos hbm, heq]
        · rw [if_neg heq] at h
          exact Option.noConfusion h

theorem insertAll_consistent [DecidableEq A] [DecidableEq K] [DecidableEq M]
    [DecidableEq G] (ms : List (MappedButtons A K M G)) :
    Consistent (insertAll ms) := by
  suffices h : ∀ (s : ButtonMapping A K M G), Consistent s →
      Consistent (ms.foldl (fun s m => (s.insertMapping m).2) s) by
    exact h _ default_consistent
  induction ms with
  | nil => intro s hs; exact hs
  | cons m ms ih =>
    intro s hs
    exact ih _ (insertMapping_consistent hs m)

/-! ### Claim theorems -/

/-- C1: for every sequence of `insert_mapping` calls starting from the
default (empty) `ButtonMapping`, every action appears in at most one
entry, every button is claimed by at most one entry, and `get_action` /
`get_buttons` are mutual inverses over the claimed set. -/
theorem c1_insert_sequence_invariants [DecidableEq A] [DecidableEq K]
    [DecidableEq M] [DecidableEq G] (ms : List (MappedButtons A K M G)) :
    (∀ i j mbi mbj, (insertAll ms).mappedButtons.get? i = some mbi →
      (insertAll ms).mappedButtons.get? j = some mbj →
      mbi.action = mbj.action → i = j)
    ∧ (∀ i j mbi mbj b, (insertAll ms).mappedButtons.get? i = some mbi →
      (insertAll ms).mappedButtons.get? j = some mbj →
      b ∈ mbi.buttons → b ∈ mbj.buttons → i = j)
    ∧ (∀ b a, (insertAll ms).getAction b = some a →
      ∃ bts, (insertAll ms).getButtons a = some bts ∧ b ∈ bts)
    ∧ (∀ a bts b, (insertAll ms).getButtons a = some bts → b ∈ bts →
      (insertAll ms).getAction b = some a) := by
  obtain ⟨hA1, hA2, hB1, hB2⟩ := insertAll_consistent ms
  refine ⟨?_, ?_, ?_, ?_⟩
  · intro i j mbi mbj hi hj hac
    have h1 := hA2 i mbi hi
    have h2 := hA2 j mbj hj
    rw [hac] at h1
    rw [h1] at h2
    injection h2
  · intro i j mbi mbj b hi hj hbi hbj
    have h1 := hB2 i mbi b hi hbi
    have h2 := hB2 j mbj b hj hbj
    rw [h1] at h2
    injection h2
  · intro b a h
    unfold ButtonMapping.getAction ButtonMapping.getFromButton at h
    cases hf : (insertAll ms).fromButtonMap b with
    | none => rw [hf] at h; simp at h
    | some i =>
      rw [hf] at h
      simp only [Option.some_bind] at h
      cases hg : (insertAll ms).mappedButtons.get? i with
      | none => rw [hg] at h; simp at h
      | some mb =>
        rw [hg] at h
        simp only [Option.map_some'] at h
        injection h with h
        rcases hB1 b i hf with ⟨mb', hmb', hbm⟩
        rw [hg] at hmb'
        injection hmb' with hmb'
        subst hmb'
        refine ⟨mb.buttons, ?_, hbm⟩
        unfold ButtonMapping.getButtons ButtonMapping.getFromAction
        rw [← h, hA2 i mb hg, Option.some_bind, hg, Option.map_some']
  · intro a bts b h hb
    unfold ButtonMapping.getButtons ButtonMapping.getFromAction at h
    cases hf : (insertAll ms).fromActionMap a with
    | none => rw [hf] at h; simp at h
    | some i =>
      rw [hf] at h
      simp only [Option.some_bind] at h
      cases hg : (insertAll ms).mappedButtons.get? i with
      | none => rw [hg] at h; simp at h
      | some mb =>
        rw [hg] at h
        simp only [Option.map_some'] at h
        injection h with h
        subst h
        rcases hA1 a i hf with ⟨mb', hmb', hac⟩
        rw [hg] at hmb'
        injection hmb' with hmb'
        subst hmb'
        have hfb := hB2 i mb b hg hb
        unfold ButtonMapping.getAction ButtonMapping.getFromButton
        rw [hfb, Option.some_bind, hg, Option.map_some', hac]

/-- Witness for C1 at a concrete two-element insertion sequence. -/
theorem c1_witness :
    ∃ bts, (insertAll exMappings).getButtons 0 = some bts
      ∧ GenericButton.keyBoard 0 ∈ bts :=
  (c1_insert_sequence_invariants exMappings).2.2.1 (.keyBoard 0) 0 (by decide)

/-- C2: `insert_mapping` returns `false` and leaves the state untouched
(entry list and both indexes unchanged) when the action is already bound
or any of the new buttons is already claimed; otherwise it returns `true`,
appends the entry, and updates both indexes. -/
theorem c2_insertMapping_spec [DecidableEq A] [DecidableEq K]
    [DecidableEq M] [DecidableEq G] (s : ButtonMapping A K M G)
    (m : MappedButtons A K M G) :
    (((s.fromActionMap m.action).isSome = true
        ∨ ∃ b ∈ m.buttons, (s.fromButtonMap b).isSome = true) →
      s.insertMapping m = (false, s))
    ∧ ((s.fromActionMap m.action = none
        ∧ ∀ b ∈ m.buttons, s.fromButtonMap b = none) →
      (s.insertMapping m).1 = true
      ∧ (s.insertMapping m).2.mappedButtons = s.mappedButtons ++ [m]
      ∧ (∀ a, (s.insertMapping m).2.fromActionMap a =
          if a = m.action then some s.mappedButtons.length
          else s.fromActionMap a)
      ∧ (∀ b, (s.insertMapping m).2.fromButtonMap b =
          if b ∈ m.buttons then some s.mappedButtons.length
          else s.fromButtonMap b)) := by
  constructor
  · intro h
    have hguard : ((s.fromActionMap m.action).isSome
        || m.buttons.any (fun b => (s.fromButtonMap b).isSome)) = true := by
      rcases h with h | ⟨b, hb, hsb⟩
      · exact Bool.or_eq_true_iff.mpr (Or.inl h)
      · exact Bool.or_eq_true_iff.mpr
          (Or.inr (List.any_eq_true.mpr ⟨b, hb, hsb⟩))
    unfold ButtonMapping.insertMapping
    rw [if_pos hguard]
  · rintro ⟨h1, h2⟩
    have hguard : ((s.fromActionMap m.action).isSome
        || m.buttons.any (fun b => (s.fromButtonMap b).isSome)) = false := by
      rw [Bool.or_eq_false_iff]
      constructor
      · rw [h1]; rfl
      · rw [List.any_eq_false]
        intro b hb
        rw [h2 b hb]
        simp
    unfold ButtonMapping.insertMapping
    rw [if_neg (by rw [hguard]; exact Bool.false_ne_true)]
    refine ⟨rfl, rfl, fun a => rfl, fun b => ?_⟩
    exact foldl_mapInsert_apply m.buttons s.fromButtonMap
      s.mappedButtons.length b

/-- Witness for C2: a conflicting insert at an already-bound action is
rejected without mutation, and an insert into the empty mapping succeeds. -/
theorem c2_witness :
    (insertAll exMappings).insertMapping ⟨0, [.gamepad 5]⟩
        = (false, insertAll exMappings)
      ∧ ((ButtonMapping.default (A := Nat) (K := Nat) (M := Nat)
          (G := Nat)).insertMapping ⟨0, [.keyBoard 0]⟩).1 = true :=
  ⟨(c2_insertMapping_spec (insertAll exMappings) ⟨0, [.gamepad 5]⟩).1
      (Or.inl (by decide)),
    ((c2_insertMapping_spec ButtonMapping.default ⟨0, [.keyBoard 0]⟩).2
      ⟨rfl, by decide⟩).1⟩

theorem get?_set_self (l : List α) (i : Nat) (a : α) (h : i < l.length) :
    (l.set i a).get? i = some a := by
  induction l generalizing i with
  | nil => simp at h
  | cons x xs ih =>
    cases i with
    | zero => rfl
    | succ j => exact ih j (Nat.lt_of_succ_lt_succ h)

/-- C3: `update_buttons` is a no-op when the action is not present; when
it is present, the old buttons not kept are no longer mapped to any
action, every new button is mapped to exactly that action, and the entry
keeps its original list position (the action index is untouched). -/
theorem c3_updateButtons_spec [DecidableEq K] [DecidableEq M]
    [DecidableEq G] (s : ButtonMapping A K M G) (hs : Consistent s)
    (action : A) (newButtons : List (GenericButton K M G)) :
    (s.getButtons action = none → s.updateButtons action newButtons = s)
    ∧ (∀ bts, s.getButtons action = some bts →
      (∀ b ∈ bts, b ∉ newButtons →
        (s.updateButtons action newButtons).getAction b = none)
      ∧ (∀ b ∈ newButtons,
        (s.updateButtons action newButtons).getAction b = some action)
      ∧ (∃ i, s.fromActionMap action = some i
        ∧ (s.updateButtons action newButtons).mappedButtons.get? i
          = some ⟨action, newButtons⟩)
      ∧ (s.updateButtons action newButtons).fromActionMap
          = s.fromActionMap) := by
  obtain ⟨hA1, hA2, hB1, hB2⟩ := hs
  constructor
  · intro h
    cases hf : s.fromActionMap action with
    | none =>
      unfold ButtonMapping.updateButtons
      rw [hf]
    | some i =>
      cases hg : s.mappedButtons.get? i with
      | none =>
        unfold ButtonMapping.updateButtons
        rw [hf]
        dsimp only
        rw [hg]
      | some mb =>
        exfalso
        unfold ButtonMapping.getButtons ButtonMapping.getFromAction at h
        rw [hf] at h
        simp only [Option.some_bind, hg] at h
        simp at h
  · intro bts h
    unfold ButtonMapping.getButtons ButtonMapping.getFromAction at h
    cases hf : s.fromActionMap action with
    | none => rw [hf] at h; simp at h
    | some i =>
      rw [hf] at h
      simp only [Option.some_bind] at h
      cases hg : s.mappedButtons.get? i with
      | none => rw [hg] at h; simp at h
      | some mb =>
        rw [hg] at h
        simp only [Option.map_some'] at h
        injection h with h
        subst h
        rcases hA1 action i hf with ⟨mb', hmb', hac⟩
        rw [hg] at hmb'
        injection hmb' with hmb'
        subst hmb'
        have hlen : i < s.mappedButtons.length := by
          by_contra hge
          rw [List.get?_eq_none.mpr (Nat.le_of_not_lt hge)] at hg
          exact Option.noConfusion hg
        have hupd : s.updateButtons action newButtons =
            { mappedButtons :=
                s.mappedButtons.set i { mb with buttons := newButtons }
              fromActionMap := s.fromActionMap
              fromButtonMap := newButtons.foldl
                (fun mp b => mapInsert mp b i)
                (mb.buttons.foldl (fun mp b => mapRemove mp b)
                  s.fromButtonMap) } := by
          unfold ButtonMapping.updateButtons
          rw [hf]
          dsimp only
          rw [hg]
        have hFB : ∀ x, (s.updateButtons action newButtons).fromButtonMap x
            = if x ∈ newButtons then some i
              else if x ∈ mb.buttons then none else s.fromButtonMap x := by
          intro x
          rw [hupd]
          dsimp only
          rw [foldl_mapInsert_apply, foldl_mapRemove_apply]
        have hGet : (s.updateButtons action newButtons).mappedButtons.get? i
            = some ⟨mb.action, newButtons⟩ := by
          rw [hupd]
          exact get?_set_self _ _ _ hlen
        refine ⟨?_, ?_, ?_, ?_⟩
        · intro b hbm hbn
          unfold ButtonMapping.getAction ButtonMapping.getFromButton
          rw [hFB b, if_neg hbn, if_pos hbm]
          rfl
        · intro b hbn
          unfold ButtonMapping.getAction ButtonMapping.getFromButton
          rw [hFB b, if_pos hbn, Option.some_bind, hGet,
            Option.map_some', hac]
        · exact ⟨i, rfl, by rw [hGet, hac]⟩
        · rw [hupd]

/-- Witness for C3: updating an existing action's buttons in a concrete
two-entry mapping unbinds the old button and binds the new one at the
same position. -/
theorem c3_witness :
    ((insertAll exMappings).updateButtons 0 [.gamepad 7]).getAction
        (.gamepad 7) = some 0
      ∧ ((insertAll exMappings).updateButtons 0
        [.gamepad 7]).getAction (.keyBoard 0) = none :=
  ⟨(((c3_updateButtons_spec (insertAll exMappings)
        (insertAll_consistent exMappings) 0 [.gamepad 7]).2
      [.keyBoard 0] (by decide)).2.1 (.gamepad 7) (by decide)),
    (((c3_updateButtons_spec (insertAll exMappings)
        (insertAll_consistent exMappings) 0 [.gamepad 7]).2
      [.keyBoard 0] (by decide)).1 (.keyBoard 0) (by decide) (by decide))⟩

/-- C5: `ButtonMapping::pressed` / `just_pressed` / `just_released` are
true iff at least one button bound to the action satisfies the matching
`GenericButton` predicate against the supplied snapshots, and an action
not present in the mapping always yields false. -/
theorem c5_action_queries (s : ButtonMapping A K M G) (action : A)
    (kc : Option (ButtonInput K)) (mc : Option (ButtonInput M))
    (gc : Option (ButtonInput G)) :
    (s.pressed action kc mc gc = true ↔
      ∃ b ∈ (s.getButtons action).getD [], b.pressed kc mc gc = true)
    ∧ (s.justPressed action kc mc gc = true ↔
      ∃ b ∈ (s.getButtons action).getD [], b.justPressed kc mc gc = true)
    ∧ (s.justReleased action kc mc gc = true ↔
      ∃ b ∈ (s.getButtons action).getD [], b.justReleased kc mc gc = true)
    ∧ (s.getButtons action = none →
      s.pressed action kc mc gc = false
      ∧ s.justPressed action kc mc gc = false
      ∧ s.justReleased action kc mc gc = false) := by
  unfold ButtonMapping.pressed ButtonMapping.justPressed
    ButtonMapping.justReleased
  cases h : s.getButtons action with
  | none => simp
  | some bts => simp [List.any_eq_true]

/-- Witness for C5: an unmapped action queries to false. -/
theorem c5_witness :
    (insertAll exMappings).pressed 5 none none none = false :=
  ((c5_action_queries (insertAll exMappings) 5 none none none).2.2.2
    (by decide)).1

/-- C6: every `GenericButton` query returns false when the device-state
snapshot matching the button's tag is omitted, whatever the other two
snapshots hold. -/
theorem c6_missing_snapshot (b : GenericButton K M G)
    (kc : Option (ButtonInput K)) (mc : Option (ButtonInput M))
    (gc : Option (ButtonInput G))
    (h : (match b with
      | .keyBoard _ => kc.isNone
      | .mouse _ => mc.isNone
      | .gamepad _ => gc.isNone) = true) :
    b.pressed kc mc gc = false ∧ b.justPressed kc mc gc = false
      ∧ b.justReleased kc mc gc = false := by
  cases b with
  | keyBoard k =>
    cases kc with
    | none => exact ⟨rfl, rfl, rfl⟩
    | some bi => simp at h
  | mouse m =>
    cases mc with
    | none => exact ⟨rfl, rfl, rfl⟩
    | some bi => simp at h
  | gamepad g =>
    cases gc with
    | none => exact ⟨rfl, rfl, rfl⟩
    | some bi => simp at h

/-- Witness for C6: a keyboard button with the keyboard snapshot omitted
reports false even though the other two snapshots report everything
pressed. -/
theorem c6_witness :
    (GenericButton.keyBoard (0 : Nat) : GenericButton Nat Nat Nat).pressed
      none (some exInput) (some exInput) = false :=
  (c6_missing_snapshot (GenericButton.keyBoard 0) none (some exInput)
    (some exInput) rfl).1

/-- For a grid cell computation no `u32` overflow can occur:
`(w/cols) * col + w/cols ≤ w` whenever `col < cols`. -/
theorem cell_bound (w cols col : Nat) (h : col < cols) :
    w / cols * col + w / cols ≤ w := by
  have h1 : w / cols * col + w / cols = w / cols * (col + 1) := by ring
  have h2 : w / cols * (col + 1) ≤ w / cols * cols :=
    Nat.mul_le_mul_left _ h
  have h3 : w / cols * cols ≤ w := Nat.div_mul_le_self w cols
  omega

/-- C4: for a Grid sprite sheet, `get(index)` computes `row = index/cols`,
returns `None` when `row ≥ rows`, and otherwise the rectangle from
`(col*cellW, row*cellH)` to `(col*cellW+cellW, row*cellH+cellH)` with
`col = index % cols`, `cellW = width/cols`, `cellH = height/rows`; in
particular for size (100,50), rows=2, cols=5: `len() = 10`,
`get(0) = (0,0)-(20,25)`, `get(6) = (20,25)-(40,50)`, `get(10) = None`. -/
theorem c4_grid_get (rows cols width height index : Nat) (hc : 0 < cols)
    (hw : width < 4294967296) (hh : height < 4294967296) :
    ((SpriteSheet.mk (.grid ⟨rows, cols⟩) (width, height)).get index
      = if rows ≤ index / cols then none
        else some (SpriteData.new
          (index % cols * (width / cols), index / cols * (height / rows))
          (index % cols * (width / cols) + width / cols,
            index / cols * (height / rows) + height / rows)))
    ∧ (SpriteSheet.mk (.grid ⟨2, 5⟩) (100, 50)).len = 10
    ∧ (SpriteSheet.mk (.grid ⟨2, 5⟩) (100, 50)).get 0
      = some ⟨(0, 0), (20, 25)⟩
    ∧ (SpriteSheet.mk (.grid ⟨2, 5⟩) (100, 50)).get 6
      = some ⟨(20, 25), (40, 50)⟩
    ∧ (SpriteSheet.mk (.grid ⟨2, 5⟩) (100, 50)).get 10 = none := by
  refine ⟨?_, by decide, by decide, by decide, by decide⟩
  unfold SpriteSheet.get SpriteSheet.getWithCache
  dsimp only
  by_cases hr : rows ≤ index / cols
  · rw [if_pos hr, if_pos hr]
  · rw [if_neg hr, if_neg hr]
    dsimp only
    have hrow : index / cols < rows := Nat.lt_of_not_le hr
    have hcol : index % cols < cols := Nat.mod_lt _ hc
    have hx := cell_bound width cols (index % cols) hcol
    have hy := cell_bound height rows (index / cols) hrow
    have hx1 : w32 (width / cols * (index % cols))
        = width / cols * (index % cols) :=
      Nat.mod_eq_of_lt (Nat.lt_of_le_of_lt
        (Nat.le_trans (Nat.le_add_right _ _) hx) hw)
    have hy1 : w32 (height / rows * (index / cols))
        = height / rows * (index / cols) :=
      Nat.mod_eq_of_lt (Nat.lt_of_le_of_lt
        (Nat.le_trans (Nat.le_add_right _ _) hy) hh)
    rw [hx1, hy1]
    have hx2 : w32 (width / cols * (index % cols) + width / cols)
        = width / cols * (index % cols) + width / cols :=
      Nat.mod_eq_of_lt (Nat.lt_of_le_of_lt hx hw)
    have hy2 : w32 (height / rows * (index / cols) + height / rows)
        = height / rows * (index / cols) + height / rows :=
      Nat.mod_eq_of_lt (Nat.lt_of_le_of_lt hy hh)
    rw [hx2, hy2]
    simp [SpriteData.new, Nat.mul_comm]

/-- Witness for C4 at the concrete 2×5 sheet and index 6. -/
theorem c4_witness :
    (SpriteSheet.mk (.grid ⟨2, 5⟩) (100, 50)).get 6
      = some (SpriteData.new (20, 25) (40, 50)) := by
  have h := (c4_grid_get 2 5 100 50 6 (by decide) (by decide)
    (by decide)).1
  simpa using h

theorem get_eq_getEager (s : SpriteSheet) (i : Nat) :
    s.get i = s.getEager i := by
  cases hl : s.layout with
  | grid g =>
    unfold SpriteSheet.getEager SpriteSheet.get SpriteSheet.getWithCache
    rw [hl]
    dsimp only
    by_cases hr : g.rows ≤ i / g.cols
    · rw [if_pos hr, if_pos hr]
    · rw [if_neg hr, if_neg hr]
  | list l =>
    unfold SpriteSheet.getEager
    rw [hl]

/-- C10: for a Grid sheet, the value `get(index)` returns does not depend
on the state of the lazy cell-size cache — from any cache state the cell
can hold, the lookup equals the eager computation without the cache, and
the cache is only ever written with exactly
`(width / cols, height / rows)`. -/
theorem c10_cache_independence (s : SpriteSheet) (g : SpriteSheetGrid)
    (hl : s.layout = .grid g) (_hc : 0 < g.cols) (c : Option (Nat × Nat))
    (hok : s.cacheOk c) (i : Nat) :
    (s.getWithCache c i).1 = s.getEager i
    ∧ ((s.getWithCache c i).2 = none
      ∨ (s.getWithCache c i).2
        = some (s.size.1 / g.cols, s.size.2 / g.rows)) := by
  obtain ⟨h1, h2⟩ := getWithCache_cacheOk s c hok i
  refine ⟨h1.trans (get_eq_getEager s i), ?_⟩
  rcases h2 with h2 | h2
  · exact Or.inl h2
  · right
    rw [h2]
    unfold SpriteSheet.eagerCellSize
    rw [hl]

/-- Witness for C10: reading the 2×5 sheet through an already-populated
cache cell returns the eager value. -/
theorem c10_witness :
    ((SpriteSheet.mk (.grid ⟨2, 5⟩) (100, 50)).getWithCache
        (some (20, 25)) 6).1
      = (SpriteSheet.mk (.grid ⟨2, 5⟩) (100, 50)).getEager 6 :=
  (c10_cache_independence (SpriteSheet.mk (.grid ⟨2, 5⟩) (100, 50))
    ⟨2, 5⟩ rfl (by decide) (some (20, 25)) (Or.inr (by decide)) 6).1

theorem toAtlas_foldl (s : SpriteSheet) (l : List Nat) :
    ∀ (acc : List URect) (c : Option (Nat × Nat)), s.cacheOk c →
      (l.foldl (fun (acc : List URect × Option (Nat × Nat)) i =>
        match s.getWithCache acc.2 (w32 i) with
        | (some d, c) => (acc.1 ++ [URect.fromCorners d.min d.max], c)
        | (none, c) => (acc.1, c)) (acc, c)).1
        = acc ++ l.filterMap fun i =>
            (s.get (w32 i)).map fun d => URect.fromCorners d.min d.max := by
  induction l with
  | nil =>
    intro acc c _
    simp
  | cons i l ih =>
    intro acc c hc
    obtain ⟨h1, h2⟩ := getWithCache_cacheOk s c hc (w32 i)
    rw [List.foldl_cons, List.filterMap_cons]
    rcases hsc : s.getWithCache c (w32 i) with ⟨r, c'⟩
    rw [hsc] at h1 h2
    dsimp only at h1 h2 ⊢
    cases r with
    | none =>
      dsimp only
      rw [ih acc c' h2, ← h1]
      rfl
    | some d =>
      dsimp only
      rw [ih (acc ++ [URect.fromCorners d.min d.max]) c' h2, ← h1]
      simp

theorem wellFormed_get_isSome (s : SpriteSheet) (hwf : s.wellFormed)
    (i : Nat) (hi : i < s.len) : (s.get i).isSome = true := by
  cases hl : s.layout with
  | grid g =>
    unfold SpriteSheet.wellFormed at hwf
    rw [hl] at hwf
    obtain ⟨hr, hc⟩ := hwf
    unfold SpriteSheet.len at hi
    rw [hl] at hi
    unfold SpriteSheetGrid.len w32 at hi
    have hi' : i < g.rows * g.cols :=
      Nat.lt_of_lt_of_le hi (Nat.mod_le _ _)
    have hrow : i / g.cols < g.rows :=
      (Nat.div_lt_iff_lt_mul hc).mpr hi'
    unfold SpriteSheet.get SpriteSheet.getWithCache
    rw [hl]
    dsimp only
    rw [if_neg (Nat.not_le.mpr hrow)]
    rfl
  | list l =>
    unfold SpriteSheet.len at hi
    rw [hl] at hi
    dsimp only at hi
    unfold SpriteSheet.get SpriteSheet.getWithCache
    rw [hl]
    dsimp only
    cases hg : l.get? i with
    | none =>
      rw [List.get?_eq_none] at hg
      omega
    | some d => rfl

theorem filterMap_eq_map_getD (f : α → Option β) (d : β) :
    ∀ l : List α, (∀ x ∈ l, (f x).isSome = true) →
      l.filterMap f = l.map fun x => (f x).getD d := by
  intro l
  induction l with
  | nil => intro _; rfl
  | cons x xs ih =>
    intro h
    have hx := h x (List.mem_cons_self x xs)
    cases hfx : f x with
    | none =>
      rw [hfx] at hx
      simp at hx
    | some b =>
      rw [List.filterMap_cons, List.map_cons, hfx]
      dsimp only
      rw [ih (fun y hy => h y (List.mem_cons_of_mem x hy))]
      rfl

theorem wellFormed_get_w32_isSome (s : SpriteSheet) (hwf : s.wellFormed)
    (i : Nat) (hi : i < s.len) : (s.get (w32 i)).isSome = true :=
  wellFormed_get_isSome s hwf (w32 i)
    (Nat.lt_of_le_of_lt (Nat.mod_le _ _) hi)

/-- Counterexample to C7 as stated: for a List sheet whose stored
rectangle has inverted corners (well-formed per the claim: any List),
the registered atlas region is the corner-normalized rectangle
`URect::from_corners` produces, not the rectangle `get(0)` returned. -/
theorem c7_counterexample :
    (SpriteSheet.mk (.list [⟨(10, 0), (0, 10)⟩]) (10, 10)).toAtlasRegions
      = [{ min := (0, 0), max := (10, 10) }]
    ∧ (SpriteSheet.mk (.list [⟨(10, 0), (0, 10)⟩]) (10, 10)).get 0
      = some ⟨(10, 0), (0, 10)⟩ :=
  ⟨by decide, by decide⟩

/-- C7 (amended): converting a well-formed sheet (positive grid, or any
list) produces exactly `len()` atlas regions in index order; region `i`
is `get(i as u32)` with its two corners normalized componentwise by
`URect::from_corners`, which leaves the rectangle unchanged whenever its
corners are already ordered (`min ≤ max` componentwise, as for every
grid cell). -/
theorem c7_amended (s : SpriteSheet) (hwf : s.wellFormed) :
    s.toAtlasRegions.length = s.len
    ∧ (∀ i, i < s.len → s.toAtlasRegions.get? i
        = (s.get (w32 i)).map fun d => URect.fromCorners d.min d.max)
    ∧ (∀ i d, s.get i = some d → d.min.1 ≤ d.max.1 → d.min.2 ≤ d.max.2 →
        URect.fromCorners d.min d.max = ⟨d.min, d.max⟩) := by
  have hregions : s.toAtlasRegions = (List.range s.len).filterMap
      fun i => (s.get (w32 i)).map fun d => URect.fromCorners d.min d.max := by
    unfold SpriteSheet.toAtlasRegions
    rw [toAtlas_foldl s (List.range s.len) [] none (Or.inl rfl)]
    rfl
  have hsome : ∀ x ∈ List.range s.len,
      ((s.get (w32 x)).map fun d =>
        URect.fromCorners d.min d.max).isSome = true := by
    intro x hx
    have h := wellFormed_get_w32_isSome s hwf x (List.mem_range.mp hx)
    cases hg : s.get (w32 x) with
    | none =>
      rw [hg] at h
      simp at h
    | some d => rfl
  rw [hregions, filterMap_eq_map_getD _
    (URect.mk (0, 0) (0, 0)) _ hsome]
  refine ⟨?_, ?_, ?_⟩
  · rw [List.length_map, List.length_range]
  · intro i hi
    rw [List.get?_map, List.get?_range hi]
    simp only [Option.map_some']
    have hi' := hsome i (List.mem_range.mpr hi)
    cases hgi : (s.get (w32 i)).map fun d =>
        URect.fromCorners d.min d.max with
    | none =>
      rw [hgi] at hi'
      simp at hi'
    | some r => rfl
  · intro i d _ hx hy
    unfold URect.fromCorners
    simp [Nat.min_def, Nat.max_def, hx, hy]

/-- Witness for C7 (amended): the 2×5 grid sheet converts to exactly
`len()` regions, and its first cell's ordered corners pass through the
normalization unchanged. -/
theorem c7_witness :
    (SpriteSheet.mk (.grid ⟨2, 5⟩) (100, 50)).toAtlasRegions.length
      = (SpriteSheet.mk (.grid ⟨2, 5⟩) (100, 50)).len
    ∧ URect.fromCorners (0, 0) (20, 25) = ⟨(0, 0), (20, 25)⟩ :=
  ⟨(c7_amended (SpriteSheet.mk (.grid ⟨2, 5⟩) (100, 50))
      ⟨by decide, by decide⟩).1,
    (c7_amended (SpriteSheet.mk (.grid ⟨2, 5⟩) (100, 50))
      ⟨by decide, by decide⟩).2.2 0 ⟨(0, 0), (20, 25)⟩ (by decide)
      (by decide) (by decide)⟩

/-- Counterexample to C8 as stated: for Grid(65536, 65536) the source's
`u32` multiplication in `len` wraps, so `len()` is 0, not `rows*cols`. -/
theorem c8_counterexample :
    (SpriteSheet.mk (.grid ⟨65536, 65536⟩) (100, 50)).len = 0
    ∧ (SpriteSheet.mk (.grid ⟨65536, 65536⟩) (100, 50)).len
      ≠ 65536 * 65536 :=
  ⟨by decide, by decide⟩

/-- C8 (amended): `len()` equals the `u32` product `rows*cols` reduced
mod `2^32` for a Grid — hence equals `rows*cols` exactly whenever that
product fits in `u32` — and equals the list length for a List; a List's
`get` returns the stored rectangle unchanged (`None` out of bounds),
including the concrete two-entry example. -/
theorem c8_amended_len_roundtrip (s : SpriteSheet) :
    (∀ g, s.layout = .grid g → s.len = w32 (g.rows * g.cols)
      ∧ (g.rows * g.cols < 4294967296 → s.len = g.rows * g.cols))
    ∧ (∀ l, s.layout = .list l →
      s.len = l.length ∧ ∀ i, s.get i = l.get? i)
    ∧ (SpriteSheet.mk
        (.list [⟨(0, 0), (10, 10)⟩, ⟨(10, 0), (20, 10)⟩]) (20, 10)).len = 2
    ∧ (SpriteSheet.mk
        (.list [⟨(0, 0), (10, 10)⟩, ⟨(10, 0), (20, 10)⟩]) (20, 10)).get 1
      = some ⟨(10, 0), (20, 10)⟩ := by
  refine ⟨?_, ?_, by decide, by decide⟩
  · intro g hl
    have hlen : s.len = w32 (g.rows * g.cols) := by
      unfold SpriteSheet.len
      rw [hl]
      rfl
    refine ⟨hlen, fun hfit => ?_⟩
    rw [hlen]
    exact Nat.mod_eq_of_lt hfit
  · intro l hl
    constructor
    · unfold SpriteSheet.len
      rw [hl]
    · intro i
      unfold SpriteSheet.get SpriteSheet.getWithCache
      rw [hl]

/-- Witness for C8 (amended) at the 2×5 grid sheet, whose cell count
fits in `u32`. -/
theorem c8_witness :
    (SpriteSheet.mk (.grid ⟨2, 5⟩) (100, 50)).len = 2 * 5 :=
  ((c8_amended_len_roundtrip
    (SpriteSheet.mk (.grid ⟨2, 5⟩) (100, 50))).1 ⟨2, 5⟩ rfl).2 (by decide)

/-- Counterexample to C9 as stated: inserting a `MappedButtons` whose own
button list repeats a button succeeds and stores the entry with the
duplicate intact — the registry does not deduplicate it. -/
theorem c9_counterexample :
    (insertAll (A := Nat) (K := Nat) (M := Nat) (G := Nat)
        [⟨0, [.keyBoard 0, .keyBoard 0]⟩]).mappedButtons.map
      (fun mb => mb.buttons) = [[.keyBoard 0, .keyBoard 0]]
    ∧ ¬ ([GenericButton.keyBoard 0, GenericButton.keyBoard 0] :
      List (GenericButton Nat Nat Nat)).Nodup :=
  ⟨by decide, by decide⟩

theorem foldl_applyOp_nodup [DecidableEq A] [DecidableEq K] [DecidableEq M]
    [DecidableEq G] (ops : List (MappingOp A K M G)) :
    ∀ (s : ButtonMapping A K M G),
      (∀ op ∈ ops, (MappingOp.suppliedButtons op).Nodup) →
      (∀ mb ∈ s.mappedButtons, mb.buttons.Nodup) →
      ∀ mb ∈ (ops.foldl ButtonMapping.applyOp s).mappedButtons,
        mb.buttons.Nodup := by
  induction ops with
  | nil =>
    intro s _ hs
    simpa using hs
  | cons op ops ih =>
    intro s hops hs
    rw [List.foldl_cons]
    refine ih _ (fun o ho => hops o (List.mem_cons_of_mem _ ho)) ?_
    have hop := hops op (List.mem_cons_self _ _)
    cases op with
    | insert m =>
      intro mb hmb
      unfold ButtonMapping.applyOp ButtonMapping.insertMapping at hmb
      dsimp only at hmb
      by_cases hguard : ((s.fromActionMap m.action).isSome
          || m.buttons.any (fun b => (s.fromButtonMap b).isSome)) = true
      · rw [if_pos hguard] at hmb
        exact hs mb hmb
      · rw [if_neg hguard] at hmb
        dsimp only at hmb
        rcases List.mem_append.mp hmb with hmb | hmb
        · exact hs mb hmb
        · rcases List.mem_singleton.mp hmb with rfl
          exact hop
    | update a bts =>
      intro mb hmb
      unfold ButtonMapping.applyOp ButtonMapping.updateButtons at hmb
      dsimp only at hmb
      cases hf : s.fromActionMap a with
      | none =>
        rw [hf] at hmb
        exact hs mb hmb
      | some i =>
        rw [hf] at hmb
        dsimp only at hmb
        cases hg : s.mappedButtons.get? i with
        | none =>
          rw [hg] at hmb
          exact hs mb hmb
        | some mapping =>
          rw [hg] at hmb
          dsimp only at hmb
          rcases List.mem_or_eq_of_mem_set hmb with hmb | hmb
          · exact hs mb hmb
          · subst hmb
            exact hop

/-- C9 (amended): the registry keeps stored entries duplicate-free only
as far as the supplied button lists are themselves duplicate-free — for
every operation sequence whose individual button lists have no internal
duplicates, every stored entry's button collection has no duplicates. -/
theorem c9_amended_nodup [DecidableEq A] [DecidableEq K] [DecidableEq M]
    [DecidableEq G] (ops : List (MappingOp A K M G))
    (h : ∀ op ∈ ops, (MappingOp.suppliedButtons op).Nodup) :
    ∀ mb ∈ (applyOps ops).mappedButtons, mb.buttons.Nodup := by
  refine foldl_applyOp_nodup ops ButtonMapping.default h ?_
  intro mb hmb
  simp [ButtonMapping.default] at hmb

/-- Witness for C9 (amended) at a concrete insert-then-update sequence. -/
theorem c9_witness :
    ((⟨0, [GenericButton.mouse 1]⟩ :
      MappedButtons Nat Nat Nat Nat)).buttons.Nodup :=
  c9_amended_nodup exOps (by decide) ⟨0, [.mouse 1]⟩ (by decide)

end BevyTarot
